import Mathlib

/-!
Verification of the transport-abstraction and routing layer of the
websocket-mcp-proxy repository, shallowly embedded from the source files
`src/server.js` and `src/http-transport.js`.

JavaScript values exchanged over the wire are modelled by the `Json`
inductive; `JSON.parse` is modelled by a small executable parser
(`parseJson`); JS truthiness by `jsTruthy`; `String.prototype.split` with
limit 2 by `jsSplitColon2`; and the `Map` of backend sessions by an
association list with unique keys.
-/

/-- A JSON value, the shape of every message exchanged with a backend. -/
inductive Json where
  | null : Json
  | bool (b : Bool) : Json
  | num (n : Int) : Json
  | str (s : String) : Json
  | arr (elems : List Json) : Json
  | obj (fields : List (String × Json)) : Json

/-- First binding of a key in a JS object's field list (models `o.k`). -/
def fieldLookup : List (String × Json) → String → Option Json
  | [], _ => none
  | (k, v) :: rest, key => if k = key then some v else fieldLookup rest key

/-- Property access `j.key`: `none` models JS `undefined`. -/
def lookupField (j : Json) (key : String) : Option Json :=
  match j with
  | Json.obj fields => fieldLookup fields key
  | _ => none

/-- JS truthiness of a possibly-absent value (`undefined`, `null`, `false`,
`0` and `""` are falsy; objects and arrays are always truthy). -/
def jsTruthy : Option Json → Bool
  | none => false
  | some Json.null => false
  | some (Json.bool b) => b
  | some (Json.num n) => n != 0
  | some (Json.str s) => s != ""
  | some (Json.arr _) => true
  | some (Json.obj _) => true

/-- Drop leading JSON whitespace. -/
def skipWS : List Char → List Char
  | [] => []
  | c :: cs => if c.isWhitespace then skipWS cs else c :: cs

/-- Decode one character of a JSON string escape sequence. -/
def unescapeChar (c : Char) : Option Char :=
  if c = 'n' then some '\n'
  else if c = 't' then some '\t'
  else if c = 'r' then some '\r'
  else if c = '"' then some '"'
  else if c = '\\' then some '\\'
  else if c = '/' then some '/'
  else none

/-- Parse the body of a JSON string literal (opening quote consumed),
returning the decoded characters and the input after the closing quote. -/
def parseStringChars : List Char → Option (List Char × List Char)
  | [] => none
  | '"' :: cs => some ([], cs)
  | '\\' :: c :: cs => do
      let ec ← unescapeChar c
      let (s, r) ← parseStringChars cs
      pure (ec :: s, r)
  | c :: cs => do
      let (s, r) ← parseStringChars cs
      pure (c :: s, r)

/-- Numeric value of a list of decimal digits. -/
def digitsToNat (ds : List Char) : Nat :=
  ds.foldl (fun a c => a * 10 + (c.toNat - 48)) 0

/-- Parse a nonempty run of decimal digits. -/
def parseDigits (l : List Char) : Option (Nat × List Char) :=
  let ds := l.takeWhile Char.isDigit
  if ds.isEmpty then none else some (digitsToNat ds, l.dropWhile Char.isDigit)

mutual

/-- Fuel-indexed parser for one JSON value, modelling `JSON.parse`. -/
def parseValue : Nat → List Char → Option (Json × List Char)
  | 0, _ => none
  | Nat.succ fuel, input =>
    match skipWS input with
    | 'n' :: 'u' :: 'l' :: 'l' :: rest => some (Json.null, rest)
    | 't' :: 'r' :: 'u' :: 'e' :: rest => some (Json.bool true, rest)
    | 'f' :: 'a' :: 'l' :: 's' :: 'e' :: rest => some (Json.bool false, rest)
    | '"' :: rest =>
        (parseStringChars rest).map (fun p => (Json.str p.1.asString, p.2))
    | '\x7b' :: rest => parseObjBody fuel (skipWS rest) []
    | '[' :: rest => parseArrBody fuel (skipWS rest) []
    | '-' :: rest =>
        (parseDigits rest).map (fun p => (Json.num (-(p.1 : Int)), p.2))
    | c :: rest =>
        if c.isDigit then
          (parseDigits (c :: rest)).map (fun p => (Json.num (p.1 : Int), p.2))
        else none
    | [] => none

/-- Members of a JSON object after the opening brace (whitespace skipped). -/
def parseObjBody : Nat → List Char → List (String × Json) →
    Option (Json × List Char)
  | 0, _, _ => none
  | Nat.succ fuel, input, acc =>
    match input with
    | '\x7d' :: rest => some (Json.obj acc.reverse, rest)
    | '"' :: rest => do
        let (key, r1) ← parseStringChars rest
        match skipWS r1 with
        | ':' :: r2 => do
            let (v, r3) ← parseValue fuel r2
            match skipWS r3 with
            | ',' :: r4 => parseObjBody fuel (skipWS r4) ((key.asString, v) :: acc)
            | '\x7d' :: r4 => some (Json.obj ((key.asString, v) :: acc).reverse, r4)
            | _ => none
        | _ => none
    | _ => none

/-- Elements of a JSON array after the opening bracket (whitespace skipped). -/
def parseArrBody : Nat → List Char → List Json → Option (Json × List Char)
  | 0, _, _ => none
  | Nat.succ fuel, input, acc =>
    match input with
    | ']' :: rest => some (Json.arr acc.reverse, rest)
    | _ => do
        let (v, r1) ← parseValue fuel input
        match skipWS r1 with
        | ',' :: r2 => parseArrBody fuel (skipWS r2) (v :: acc)
        | ']' :: r2 => some (Json.arr ((v :: acc).reverse), r2)
        | _ => none

end

/-- Model of `JSON.parse`: the whole input must be one JSON value,
possibly surrounded by whitespace; `none` models a thrown SyntaxError. -/
def parseJson (s : String) : Option Json :=
  match parseValue (s.length + 1) s.toList with
  | some (j, rest) => if (skipWS rest).isEmpty then some j else none
  | none => none

/-!
The Session Registry and Router, from `src/server.js`.

`this.mcpServers` is a JS `Map` from backend name to a session record; it is
modelled as an association list with pairwise-distinct keys (a `Map` holds at
most one entry per key).  The record's `server.request` capability is
abstracted into the two calls the router actually issues: `tools/list`
(`listTools`) and `tools/call` (`callTool`).  A JS exception thrown by a call
is modelled as `Except.error` carrying the message.
-/

/-- A catalog entry returned by a backend's `tools/list`
(`src/server.js:218-225`); `description` is `none` when the JS field
is `undefined`; all other fields are carried opaquely in `schema`. -/
structure Tool where
  name : String
  description : Option String
  schema : Json

/-- One live backend session as the router sees it
(`this.mcpServers.get(name)` in `src/server.js`): the outcome of its
`tools/list` request and its `tools/call` capability.  `Except.error`
models a thrown/rejected JS call. -/
structure MCPServer where
  listTools : Except String (List Tool)
  callTool : String → Json → Except String Json

/-- The session registry `this.mcpServers` (`src/server.js:23`). -/
abbrev Registry := List (String × MCPServer)

/-- `Map.get` on the registry. -/
def lookupServer : Registry → String → Option MCPServer
  | [], _ => none
  | (n, s) :: rest, key => if n = key then some s else lookupServer rest key

/-- The `exit` handler of a process-pipe backend
(`src/server.js:115-118`): `this.mcpServers.delete(name)`. -/
def handleStdioExit : Registry → String → Registry
  | [], _ => []
  | (n, s) :: rest, key =>
      if n = key then rest else (n, s) :: handleStdioExit rest key

/-- The catalog renaming of `src/server.js:221-225`: the tool name becomes
`serverName:toolName` and the description gains a `[serverName] ` marker
(`tool.description || ''` turns an absent or empty description into `''`). -/
def namespaceTool (serverName : String) (t : Tool) : Tool :=
  { t with
    name := serverName ++ ":" ++ t.name,
    description := some ("[" ++ serverName ++ "] " ++ t.description.getD "") }

/-- The ListTools handler's aggregation loop (`src/server.js:195-234`):
every live session is asked for its tools; a backend whose `tools/list`
throws is logged and skipped (`catch` at line 228), so the loop itself
never throws and returns the renamed tools of the remaining backends
in registry order. -/
def aggregateTools : Registry → List Tool
  | [] => []
  | (n, s) :: rest =>
      (match s.listTools with
       | Except.ok tools => tools.map (namespaceTool n)
       | Except.error _ => []) ++ aggregateTools rest

/-- First-separator split of a character list: `none` when the separator
does not occur, otherwise the characters before the first occurrence and
everything after it. -/
def splitFirst (sep : Char) : List Char → Option (List Char × List Char)
  | [] => none
  | c :: cs =>
      if c = sep then some ([], cs)
      else (splitFirst sep cs).map (fun p => (c :: p.1, p.2))

/-- JavaScript `toolName.split(':', 2)` destructured into its two
elements (`src/server.js:241`).  With limit 2, the second element is the
text between the first and the second colon — anything after a second
colon is discarded — and it is absent (`undefined`, here `none`) when
the string has no colon at all. -/
def jsSplitColon2 (s : String) : String × Option String :=
  match splitFirst ':' s.toList with
  | none => (s, none)
  | some (a, r) => (a.asString, some ((r.takeWhile (fun c => c != ':')).asString))

/-- The spec's reading of the split (section 4.5: split on the FIRST
occurrence, the tool segment being the whole remainder).  Used to state
hypotheses about backend/tool segments; compare with `jsSplitColon2`. -/
def specSplitColon (s : String) : Option (String × String) :=
  (splitFirst ':' s.toList).map (fun p => (p.1.asString, p.2.asString))

/-- Router-level errors thrown by the CallTool handler
(`src/server.js:243-250`), plus the re-thrown backend failure of
line 283. -/
inductive DispatchError where
  | malformedToolName (name : String) : DispatchError
  | unknownBackend (name : String) : DispatchError
  | backendFailure (msg : String) : DispatchError

/-- Response normalization at `src/server.js:280`:
`response.result ? response : { content: response }`. -/
def normalizeResponse (response : Json) : Json :=
  if jsTruthy (lookupField response "result") then response
  else Json.obj [("content", response)]

/-- The CallTool request handler (`src/server.js:237-285`).  Returns the
handler's outcome together with the trace of `tools/call` invocations it
performed on backend sessions, each as (backend name, unqualified tool
name, arguments); the trace makes "no backend call" and "only this
session was called" provable.  The name is split by
`toolName.split(':', 2)`; a missing second element or an empty segment
throws the invalid-format error (`!serverName || !actualToolName`); an
unregistered backend name throws the not-found error; otherwise the one
looked-up session's `callTool` is invoked and its response normalized
(a thrown backend error is logged and re-thrown, line 281-284). -/
def dispatch (servers : Registry) (toolName : String) (args : Json) :
    Except DispatchError Json × List (String × String × Json) :=
  match jsSplitColon2 toolName with
  | (_, none) => (Except.error (DispatchError.malformedToolName toolName), [])
  | (serverName, some actualToolName) =>
      if serverName = "" ∨ actualToolName = "" then
        (Except.error (DispatchError.malformedToolName toolName), [])
      else
        match lookupServer servers serverName with
        | none => (Except.error (DispatchError.unknownBackend serverName), [])
        | some srv =>
            match srv.callTool actualToolName args with
            | Except.ok response =>
                (Except.ok (normalizeResponse response),
                 [(serverName, actualToolName, args)])
            | Except.error msg =>
                (Except.error (DispatchError.backendFailure msg),
                 [(serverName, actualToolName, args)])

/-!
The streamed-HTTP binding, from `HttpTransport.sendHTTP`
(`src/http-transport.js:186-247`), streaming-response branch
(lines 209-246).  Chunks read from the response body are split on
newlines; the last (possibly incomplete) piece is carried over as the
buffer; every complete nonblank line is `JSON.parse`d and the first one
whose `id` strictly equals the request's id is returned; when the stream
ends, a nonblank trailing buffer is parsed (or wrapped as
`{ result: buffer }` if unparseable), and an empty one lets the
function fall through, resolving with `undefined` (here `none`).
-/

/-- Full split of a character list on newline characters; like JS
`s.split('\n')` it always yields at least one (possibly empty) piece. -/
def splitLinesAux : List Char → List (List Char)
  | [] => [[]]
  | c :: cs =>
      if c = '\n' then [] :: splitLinesAux cs
      else
        match splitLinesAux cs with
        | [] => [[c]]
        | l :: ls => (c :: l) :: ls

/-- JavaScript `buffer.split('\n')` (`src/http-transport.js:221`). -/
def jsSplitNewline (s : String) : List String :=
  (splitLinesAux s.toList).map List.asString

/-- Whether `s.trim()` is nonempty, i.e. `s` has a non-whitespace
character (the `if (line.trim())` and `if (buffer.trim())` tests). -/
def hasNonWS (s : String) : Bool :=
  s.toList.any (fun c => !c.isWhitespace)

/-- The strict-equality id test `data.id === message.id`
(`src/http-transport.js:228`); `message.id` is always a string
(`src/http-transport.js:146-147`), so only a string `id` field equal to
it matches. -/
def idMatches (data : Json) (msgId : String) : Bool :=
  match lookupField data "id" with
  | some (Json.str s) => s == msgId
  | _ => false

/-- The inner line loop (`src/http-transport.js:224-235`): skip blank
lines, parse each remaining line, ignore parse failures (they only log a
warning), and return the first parsed fragment whose id matches. -/
def scanLines (msgId : String) : List String → Option Json
  | [] => none
  | line :: rest =>
      if hasNonWS line then
        match parseJson line with
        | some data =>
            if idMatches data msgId then some data else scanLines msgId rest
        | none => scanLines msgId rest
      else scanLines msgId rest

/-- End-of-stream handling of the leftover buffer
(`src/http-transport.js:239-245`): a nonblank buffer is parsed, or
wrapped as `{ result: buffer }` when parsing throws; a blank buffer is
ignored and the function returns `undefined` (`none`). -/
def flushBuffer (buffer : String) : Option Json :=
  if hasNonWS buffer then
    match parseJson buffer with
    | some j => some j
    | none => some (Json.obj [("result", Json.str buffer)])
  else none

/-- The chunk loop of the streaming branch
(`src/http-transport.js:214-245`): per chunk, append to the buffer,
split on newlines, keep the last piece as the new buffer
(`lines.pop() || ''`), scan the complete lines, and return on the first
id match; at end of stream flush the buffer. -/
def sendHTTPStreamLoop (msgId : String) : List String → String → Option Json
  | [], buffer => flushBuffer buffer
  | chunk :: rest, buffer =>
      match scanLines msgId ((jsSplitNewline (buffer ++ chunk)).dropLast) with
      | some j => some j
      | none =>
          sendHTTPStreamLoop msgId rest
            ((jsSplitNewline (buffer ++ chunk)).getLastD "")

/-- Outcome of the streaming branch of `sendHTTP` for a request with id
`msgId` whose response body delivers `chunks`; `none` is JS `undefined`. -/
def sendHTTPStreaming (msgId : String) (chunks : List String) : Option Json :=
  sendHTTPStreamLoop msgId chunks ""

/-- The complete (newline-terminated) lines produced by the chunk loop,
in processing order. -/
def streamCompleteLines : List String → String → List String
  | [], _ => []
  | chunk :: rest, buffer =>
      (jsSplitNewline (buffer ++ chunk)).dropLast ++
        streamCompleteLines rest ((jsSplitNewline (buffer ++ chunk)).getLastD "")

/-- The buffer left over when the stream ends. -/
def streamFinalBuffer : List String → String → String
  | [], buffer => buffer
  | chunk :: rest, buffer =>
      streamFinalBuffer rest ((jsSplitNewline (buffer ++ chunk)).getLastD "")

/-!
The push-stream (SSE) binding, from `HttpTransport.sendSSE`,
`handleMessage` and `connect` (`src/http-transport.js`).
-/

/-- The observable steps of `HttpTransport.sendSSE`
(`src/http-transport.js:161-184`) on its success path, in program
order: the POST of the request is issued and awaited
(`await fetch(postUrl, …)`), and only after its response has arrived
does the Promise executor run `this.pendingRequests.set(message.id, …)`
registering the Pending Request. -/
inductive SSEStep where
  | postRequestSent : SSEStep
  | postResponseReceived : SSEStep
  | pendingRegistered (id : String) : SSEStep

/-- Program-order event trace of `sendSSE` for a request with the given
id, read directly off `src/http-transport.js:165-183`. -/
def sendSSESteps (id : String) : List SSEStep :=
  [SSEStep.postRequestSent, SSEStep.postResponseReceived,
   SSEStep.pendingRegistered id]

/-- What `HttpTransport.handleMessage` does with one inbound message. -/
inductive HandleOutcome where
  | resolvedWith (data : Json) : HandleOutcome
  | unsolicited (data : Json) : HandleOutcome

/-- `HttpTransport.handleMessage` (`src/http-transport.js:249-259`) over
the correlation table, modelled by the list of pending request ids (the
`Map` keys, pairwise distinct): a message whose truthy `id` is a pending
key resolves and removes that entry; anything else — including a message
whose id matches no entry — is emitted on the side channel as an
unsolicited message, and the table is unchanged.  The ids keyed in the
table are strings (`src/http-transport.js:146-147`), so a non-string
`data.id` never hits an entry. -/
def handleMessage (pending : List String) (data : Json) :
    HandleOutcome × List String :=
  match lookupField data "id" with
  | some (Json.str i) =>
      if (i != "") && pending.contains i then
        (HandleOutcome.resolvedWith data, pending.erase i)
      else (HandleOutcome.unsolicited data, pending)
  | _ => (HandleOutcome.unsolicited data, pending)

/-- The timeout callback registered in `sendSSE`
(`src/http-transport.js:177-180`): it deletes the entry for the
request's id from the correlation table and rejects the caller (once —
a one-shot `setTimeout`) with the timeout error. -/
def fireTimeout (pending : List String) (id : String) : List String :=
  pending.erase id

/-- `HttpTransport.connect` (`src/http-transport.js:47-66`): the value
of `this.connected` after `connect()` returns, as a function of the
startup probe's outcome (`connectSSE`/`connectHTTP`).  Both the `try`
branch and the `catch` branch set `this.connected = true`; the catch
only logs the probe failure. -/
def connectAfter (probeResult : Except String Unit) : Bool :=
  match probeResult with
  | Except.ok _ => true
  | Except.error _ => true

/-- The guard at the top of `HttpTransport.send`
(`src/http-transport.js:141-144`): a send on a transport that is not
connected throws; otherwise the per-call send proceeds. -/
def sendGate (connected : Bool) : Except String Unit :=
  if connected then Except.ok () else Except.error "Transport not connected"

/-!
Concrete fixtures used by the witnesses and counterexamples.
-/

/-- A backend session that answers every `tools/call` with the string "A". -/
def demoA : MCPServer :=
  { listTools := Except.ok [], callTool := fun _ _ => Except.ok (Json.str "A") }

/-- A backend session that answers every `tools/call` with the string "B". -/
def demoB : MCPServer :=
  { listTools := Except.ok [], callTool := fun _ _ => Except.ok (Json.str "B") }

/-- Two live backends `a` and `b`, both exposing a tool named `run`. -/
def demoAB : Registry := [("a", demoA), ("b", demoB)]

/-- A backend session whose `tools/call` echoes back the unqualified tool
name it was invoked with, making the forwarded name observable. -/
def echoServer : MCPServer :=
  { listTools := Except.ok [],
    callTool := fun toolName _ => Except.ok (Json.str toolName) }

/-- A registry with the echo backend registered under the name `b`. -/
def demoEchoRegistry : Registry := [("b", echoServer)]

/-- A catalog entry `alpha` served by the first demo backend. -/
def toolAlpha : Tool :=
  { name := "alpha", description := some "does alpha", schema := Json.null }

/-- A catalog entry `gamma` served by the last demo backend. -/
def toolGamma : Tool :=
  { name := "gamma", description := none, schema := Json.null }

/-- A backend whose `tools/list` succeeds with the `alpha` catalog. -/
def demoListA : MCPServer :=
  { listTools := Except.ok [toolAlpha],
    callTool := fun _ _ => Except.ok Json.null }

/-- A backend whose `tools/list` succeeds with the `gamma` catalog. -/
def demoListC : MCPServer :=
  { listTools := Except.ok [toolGamma],
    callTool := fun _ _ => Except.ok Json.null }

/-- A backend whose `tools/list` throws. -/
def demoFail : MCPServer :=
  { listTools := Except.error "connection reset",
    callTool := fun _ _ => Except.error "connection reset" }

/-- The fragment stream of the spec's streamed-HTTP scenario, delivered
as one chunk. -/
def scenarioStream : String :=
  "\x7b\"id\":\"x\",\"partial\":true\x7d\n\x7b\"id\":\"x\",\"result\":42\x7d\n"

/-- The first fragment of the scenario stream. -/
def interimFrag : Json :=
  Json.obj [("id", Json.str "x"), ("partial", Json.bool true)]

/-- The second fragment of the scenario stream, carrying result 42. -/
def resultFrag : Json :=
  Json.obj [("id", Json.str "x"), ("result", Json.num 42)]

/-- A single chunk whose only fragment answers a different request id. -/
def otherIdChunk : String := "\x7b\"id\":\"y\",\"result\":1\x7d\n"

/-- A reply message pushed for request id `req-1`. -/
def fastReply : Json :=
  Json.obj [("id", Json.str "req-1"), ("result", Json.num 7)]

/-- Whether a string contains no colon; backend names satisfy this by
configuration validation, and unqualified tool names by assumption. -/
def noColon (s : String) : Bool :=
  s.toList.all (fun c => c != ':')

/-!
Helper lemmas about the string plumbing.
-/

theorem string_toList_append (s t : String) :
    (s ++ t).toList = s.toList ++ t.toList := by
  obtain ⟨sd⟩ := s
  obtain ⟨td⟩ := t
  rfl

theorem string_asString_toList (s : String) : s.toList.asString = s := by
  obtain ⟨sd⟩ := s
  rfl

theorem asString_eq_empty {l : List Char} (h : l.asString = "") : l = [] := by
  exact congrArg String.toList h

theorem noColon_chars {s : String} (h : noColon s = true) :
    ∀ c ∈ s.toList, c ≠ ':' := by
  intro c hc
  have hb := (List.all_eq_true.mp h) c hc
  simpa using hb

theorem splitFirst_append_sep (a r : List Char) (h : ∀ c ∈ a, c ≠ ':') :
    splitFirst ':' (a ++ ':' :: r) = some (a, r) := by
  induction a with
  | nil => simp [splitFirst]
  | cons c cs ih =>
      have hc : c ≠ ':' := h c (List.mem_cons_self c cs)
      have hrest : ∀ x ∈ cs, x ≠ ':' := fun x hx => h x (List.mem_cons_of_mem c hx)
      simp [splitFirst, hc, ih hrest]

theorem takeWhile_of_all (p : Char → Bool) (l : List Char)
    (h : ∀ c ∈ l, p c = true) : l.takeWhile p = l := by
  induction l with
  | nil => rfl
  | cons c cs ih =>
      have hc := h c (List.mem_cons_self c cs)
      have hrest : ∀ x ∈ cs, p x = true := fun x hx => h x (List.mem_cons_of_mem c hx)
      simp [List.takeWhile_cons, hc, ih hrest]

theorem takeWhile_append_stop (p : Char → Bool) (a : List Char) (y : Char)
    (r : List Char) (h : ∀ c ∈ a, p c = true) (hy : p y = false) :
    (a ++ y :: r).takeWhile p = a := by
  induction a with
  | nil => simp [List.takeWhile_cons, hy]
  | cons c cs ih =>
      have hc := h c (List.mem_cons_self c cs)
      have hrest : ∀ x ∈ cs, p x = true := fun x hx => h x (List.mem_cons_of_mem c hx)
      simp [List.takeWhile_cons, hc, ih hrest]

theorem jsSplitColon2_sep (b t : String) (hb : noColon b = true)
    (ht : noColon t = true) :
    jsSplitColon2 (b ++ ":" ++ t) = (b, some t) := by
  have htl : (b ++ ":" ++ t).toList = b.toList ++ ':' :: t.toList := by
    rw [string_toList_append, string_toList_append]
    simp
  unfold jsSplitColon2
  rw [htl, splitFirst_append_sep b.toList t.toList (noColon_chars hb)]
  show (b.toList.asString,
    some ((t.toList.takeWhile (fun c => c != ':')).asString)) = (b, some t)
  have htw : t.toList.takeWhile (fun c => c != ':') = t.toList := by
    apply takeWhile_of_all
    intro c hc
    simpa using noColon_chars ht c hc
  rw [htw, string_asString_toList, string_asString_toList]

theorem jsSplitColon2_two_seps (b t1 rest : String) (hb : noColon b = true)
    (ht1 : noColon t1 = true) :
    jsSplitColon2 (b ++ ":" ++ t1 ++ ":" ++ rest) = (b, some t1) := by
  have htl : (b ++ ":" ++ t1 ++ ":" ++ rest).toList =
      b.toList ++ ':' :: (t1.toList ++ ':' :: rest.toList) := by
    rw [string_toList_append, string_toList_append, string_toList_append,
      string_toList_append]
    simp
  unfold jsSplitColon2
  rw [htl,
    splitFirst_append_sep b.toList (t1.toList ++ ':' :: rest.toList)
      (noColon_chars hb)]
  show (b.toList.asString,
    some (((t1.toList ++ ':' :: rest.toList).takeWhile
      (fun c => c != ':')).asString)) = (b, some t1)
  have htw : (t1.toList ++ ':' :: rest.toList).takeWhile (fun c => c != ':') =
      t1.toList := by
    apply takeWhile_append_stop
    · intro c hc
      simpa using noColon_chars ht1 c hc
    · simp
  rw [htw, string_asString_toList, string_asString_toList]

theorem aggregateTools_append (xs ys : Registry) :
    aggregateTools (xs ++ ys) = aggregateTools xs ++ aggregateTools ys := by
  induction xs with
  | nil => simp [aggregateTools]
  | cons p rest ih =>
      obtain ⟨n, s⟩ := p
      simp [aggregateTools, ih]

theorem lookupServer_eq_none_of_not_mem (R : Registry) (k : String)
    (h : k ∉ R.map Prod.fst) : lookupServer R k = none := by
  induction R with
  | nil => rfl
  | cons p rest ih =>
      obtain ⟨n, s⟩ := p
      simp only [List.map_cons, List.mem_cons] at h
      push_neg at h
      simp only [lookupServer]
      rw [if_neg (fun hnk => h.1 hnk.symm)]
      exact ih h.2

theorem lookupServer_handleStdioExit (R : Registry) (b : String)
    (hnd : (R.map Prod.fst).Nodup) :
    lookupServer (handleStdioExit R b) b = none := by
  induction R with
  | nil => rfl
  | cons p rest ih =>
      obtain ⟨n, s⟩ := p
      simp only [List.map_cons, List.nodup_cons] at hnd
      simp only [handleStdioExit]
      by_cases h : n = b
      · rw [if_pos h]
        apply lookupServer_eq_none_of_not_mem
        rw [← h]
        exact hnd.1
      · rw [if_neg h]
        simp only [lookupServer]
        rw [if_neg h]
        exact ih hnd.2

theorem scanLines_append (m : String) (xs ys : List String) :
    scanLines m (xs ++ ys) =
      match scanLines m xs with
      | some j => some j
      | none => scanLines m ys := by
  induction xs with
  | nil => simp [scanLines]
  | cons l rest ih =>
      simp only [List.cons_append, scanLines]
      cases hws : hasNonWS l with
      | false => simpa [hws] using ih
      | true =>
          cases hp : parseJson l with
          | none => simpa [hws, hp] using ih
          | some d =>
              cases him : idMatches d m with
              | false => simpa [hws, hp, him] using ih
              | true => simp [hws, hp, him]

theorem sendHTTPStreamLoop_eq (m : String) (chunks : List String)
    (buffer : String) :
    sendHTTPStreamLoop m chunks buffer =
      match scanLines m (streamCompleteLines chunks buffer) with
      | some j => some j
      | none => flushBuffer (streamFinalBuffer chunks buffer) := by
  induction chunks generalizing buffer with
  | nil => simp [sendHTTPStreamLoop, streamCompleteLines, streamFinalBuffer, scanLines]
  | cons c rest ih =>
      simp only [sendHTTPStreamLoop, streamCompleteLines, streamFinalBuffer]
      rw [scanLines_append]
      cases h : scanLines m ((jsSplitNewline (buffer ++ c)).dropLast) with
      | some j => simp
      | none => simpa using ih ((jsSplitNewline (buffer ++ c)).getLastD "")

/-!
The ten claims.
-/

/-- C1: For every backend name `b` registered in the session registry and
every tool name `t`, dispatching a `tools/call` with name `b:t` forwards
the call to the Backend Session registered under `b` and to no other
session (the invocation trace is exactly one call, on `b`), even when
another registered backend exposes a tool also named `t` — the outcome
depends only on the session looked up under `b`. -/
theorem C1_dispatch_routes_only_to_named_backend (R : Registry) (b t : String)
    (S : MCPServer) (args : Json)
    (hb : noColon b = true) (ht : noColon t = true)
    (hbne : b ≠ "") (htne : t ≠ "")
    (hS : lookupServer R b = some S) :
    dispatch R (b ++ ":" ++ t) args =
      match S.callTool t args with
      | Except.ok response =>
          (Except.ok (normalizeResponse response), [(b, t, args)])
      | Except.error msg =>
          (Except.error (DispatchError.backendFailure msg), [(b, t, args)]) := by
  simp only [dispatch, jsSplitColon2_sep b t hb ht]
  rw [if_neg (not_or.mpr ⟨hbne, htne⟩), hS]

/-- Witness for C1: with two backends `a` and `b` both exposing a tool
named `run`, calling `a:run` invokes only `a`'s session and returns its
answer. -/
theorem C1_dispatch_routes_only_to_named_backend_witness :
    dispatch demoAB "a:run" Json.null =
      (Except.ok (Json.obj [("content", Json.str "A")]),
       [("a", "run", Json.null)]) := by
  exact C1_dispatch_routes_only_to_named_backend demoAB "a" "run" demoA
    Json.null (by decide) (by decide) (by decide) (by decide) rfl

/-- C2: when exactly one of the live backends fails its `tools/list`
call, the aggregation returns exactly what it returns for the other
backends alone — their tools renamed to `backendName:toolName` with the
bracketed description marker, per `aggregateTools`'s definition — and
the aggregation is a total function (the per-backend `catch` means it
never raises). -/
theorem C2_aggregateTools_skips_failing_backend (pre post : Registry)
    (nf : String) (F : MCPServer) (e : String)
    (hF : F.listTools = Except.error e)
    (_hok : ∀ p ∈ pre ++ post, ∃ ts, (Prod.snd p).listTools = Except.ok ts) :
    aggregateTools (pre ++ (nf, F) :: post) = aggregateTools (pre ++ post) := by
  rw [aggregateTools_append, aggregateTools_append]
  simp [aggregateTools, hF]

/-- Witness for C2: of three backends, `f` fails `tools/list`; the
result is the renamed union of the tools of `a` and `c`. -/
theorem C2_aggregateTools_skips_failing_backend_witness :
    aggregateTools [("a", demoListA), ("f", demoFail), ("c", demoListC)] =
      aggregateTools [("a", demoListA), ("c", demoListC)] ∧
    aggregateTools [("a", demoListA), ("c", demoListC)] =
      [{ name := "a:alpha", description := some "[a] does alpha",
         schema := Json.null },
       { name := "c:gamma", description := some "[c] ", schema := Json.null }] := by
  constructor
  · exact C2_aggregateTools_skips_failing_backend [("a", demoListA)]
      [("c", demoListC)] "f" demoFail "connection reset" rfl
      (by
        intro p hp
        simp only [List.cons_append, List.nil_append, List.mem_cons,
          List.not_mem_nil, or_false] at hp
        rcases hp with rfl | rfl
        · exact ⟨[toolAlpha], rfl⟩
        · exact ⟨[toolGamma], rfl⟩)
  · rfl

/-- C3 counterexample: on the scenario stream
`{"id":"x","partial":true}\n{"id":"x","result":42}\n` the streaming
branch does NOT resolve with the fragment carrying result 42 — the
partial fragment's id already matches, and matching is by id only, so
the first fragment wins. -/
theorem C3_scenario_counterexample :
    sendHTTPStreaming "x" [scenarioStream] ≠ some resultFrag := by
  intro h
  have e : sendHTTPStreaming "x" [scenarioStream] = some interimFrag := rfl
  rw [e] at h
  simp [interimFrag, resultFrag] at h

/-- C3 amended: the call resolves with the FIRST fragment whose id
matches the request id — here the partial fragment
`{"id":"x","partial":true}` — not with the later result fragment. -/
theorem C3_scenario_resolves_with_first_matching_fragment :
    sendHTTPStreaming "x" [scenarioStream] = some interimFrag := rfl

/-- C4 (code bug): in `sendSSE` the Pending Request is registered only
AFTER the awaited POST has completed — the trace places
`pendingRegistered` after `postResponseReceived` — so an execution
exists in which a fast reply arrives between the POST's completion and
the registration; such a reply finds an empty correlation table and is
diverted to the unsolicited-message path, never resolving the caller. -/
theorem C4_sendSSE_registers_pending_after_post_completes :
    sendSSESteps "req-1" =
      [SSEStep.postRequestSent, SSEStep.postResponseReceived,
       SSEStep.pendingRegistered "req-1"] ∧
    handleMessage [] fastReply = (HandleOutcome.unsolicited fastReply, []) :=
  ⟨rfl, rfl⟩

/-- C5 counterexample: dispatching `b:t1:t2` does not forward the whole
remainder `t1:t2` to backend `b`; the echo backend observably receives
`t1`, because `split(':', 2)` discards everything after the second
colon. -/
theorem C5_counterexample_split_discards_remainder :
    ¬ ((dispatch demoEchoRegistry "b:t1:t2" Json.null).2 =
        [("b", "t1:t2", Json.null)]) := by
  intro h
  have e : (dispatch demoEchoRegistry "b:t1:t2" Json.null).2 =
      [("b", "t1", Json.null)] := rfl
  rw [e] at h
  simp at h

/-- C5 amended: dispatch splits the name into at most two
colon-separated segments; for `b:t1:rest` the backend segment is `b` and
the unqualified tool name forwarded to `b`'s session is `t1`, the text
between the first and second separator — everything after the second
separator is discarded. -/
theorem C5_amended_split_keeps_second_segment (R : Registry)
    (b t1 rest : String) (S : MCPServer) (args : Json)
    (hb : noColon b = true) (ht1 : noColon t1 = true)
    (hbne : b ≠ "") (ht1ne : t1 ≠ "")
    (hS : lookupServer R b = some S) :
    dispatch R (b ++ ":" ++ t1 ++ ":" ++ rest) args =
      match S.callTool t1 args with
      | Except.ok response =>
          (Except.ok (normalizeResponse response), [(b, t1, args)])
      | Except.error msg =>
          (Except.error (DispatchError.backendFailure msg), [(b, t1, args)]) := by
  simp only [dispatch, jsSplitColon2_two_seps b t1 rest hb ht1]
  rw [if_neg (not_or.mpr ⟨hbne, ht1ne⟩), hS]

/-- Witness for the amended C5: dispatching `b:t1:t2` at the echo
backend forwards exactly the tool name `t1`. -/
theorem C5_amended_split_keeps_second_segment_witness :
    dispatch demoEchoRegistry "b:t1:t2" Json.null =
      (Except.ok (Json.obj [("content", Json.str "t1")]),
       [("b", "t1", Json.null)]) := by
  exact C5_amended_split_keeps_second_segment demoEchoRegistry "b" "t1" "t2"
    echoServer Json.null (by decide) (by decide) (by decide) (by decide) rfl

/-- C6: a tool name that lacks the separator, or whose backend segment
(before the first colon) or tool segment (everything after the first
colon) is empty, is always rejected with the malformed-name error, and
no backend session is called (empty invocation trace). -/
theorem C6_malformed_tool_name_rejected_without_backend_call (R : Registry)
    (name : String) (args : Json)
    (h : specSplitColon name = none ∨
      ∃ b t, specSplitColon name = some (b, t) ∧ (b = "" ∨ t = "")) :
    dispatch R name args =
      (Except.error (DispatchError.malformedToolName name), []) := by
  rcases h with hnone | ⟨b, t, hsome, hempty⟩
  · have hsf : splitFirst ':' name.toList = none := by
      unfold specSplitColon at hnone
      exact Option.map_eq_none'.mp hnone
    simp only [dispatch, jsSplitColon2, hsf]
  · cases hsf : splitFirst ':' name.toList with
    | none => simp only [dispatch, jsSplitColon2, hsf]
    | some p =>
        obtain ⟨a, r⟩ := p
        unfold specSplitColon at hsome
        rw [hsf] at hsome
        simp only [Option.map_some'] at hsome
        have hpair := Option.some.inj hsome
        have hab : a.asString = b := congrArg Prod.fst hpair
        have hrt : r.asString = t := congrArg Prod.snd hpair
        simp only [dispatch, jsSplitColon2, hsf]
        rcases hempty with hbe | hte
        · rw [if_pos (Or.inl (hab.trans hbe))]
        · have hr : r = [] := asString_eq_empty (hrt.trans hte)
          subst hr
          rw [if_pos (Or.inr (show
            (List.takeWhile (fun c => c != ':') ([] : List Char)).asString = ""
            from rfl))]

/-- Witness for C6: a name with no separator is rejected without any
backend call, with both demo backends live. -/
theorem C6_malformed_tool_name_rejected_without_backend_call_witness :
    dispatch demoAB "plainname" Json.null =
      (Except.error (DispatchError.malformedToolName "plainname"), []) := by
  exact C6_malformed_tool_name_rejected_without_backend_call demoAB
    "plainname" Json.null (Or.inl rfl)

/-- C7: a well-formed tool name whose backend segment matches no backend
in the registry is always rejected with the unknown-backend error — not
a stale-session error — and no live session is invoked (empty
invocation trace).  Instantiated in the witness with a registry from
which the backend was removed by the process-exit handler. -/
theorem C7_unknown_backend_rejected_without_backend_call (R : Registry)
    (b t : String) (args : Json)
    (hb : noColon b = true) (ht : noColon t = true)
    (hbne : b ≠ "") (htne : t ≠ "")
    (hnone : lookupServer R b = none) :
    dispatch R (b ++ ":" ++ t) args =
      (Except.error (DispatchError.unknownBackend b), []) := by
  simp only [dispatch, jsSplitColon2_sep b t hb ht]
  rw [if_neg (not_or.mpr ⟨hbne, htne⟩), hnone]

/-- Witness for C7: after backend `b`'s subprocess exit removed it from
the registry, a call to `b:run` fails with the unknown-backend error and
touches no session. -/
theorem C7_unknown_backend_rejected_without_backend_call_witness :
    dispatch (handleStdioExit demoAB "b") "b:run" Json.null =
      (Except.error (DispatchError.unknownBackend "b"), []) := by
  exact C7_unknown_backend_rejected_without_backend_call
    (handleStdioExit demoAB "b") "b" "run" Json.null
    (by decide) (by decide) (by decide) (by decide) rfl

/-- C8: when a Pending Request times out, the timeout callback removes
its correlation entry (and rejects the caller, its single resolution); a
later message carrying the same id finds no entry, is classified as an
unsolicited message (not a protocol error), leaves the table unchanged,
and cannot resolve the request a second time. -/
theorem C8_timeout_removes_entry_and_late_reply_is_unsolicited
    (pending : List String) (i : String) (d : Json)
    (hnd : pending.Nodup) (_hmem : i ∈ pending)
    (hid : lookupField d "id" = some (Json.str i)) :
    i ∉ fireTimeout pending i ∧
      handleMessage (fireTimeout pending i) d =
        (HandleOutcome.unsolicited d, fireTimeout pending i) := by
  have hnotmem : i ∉ fireTimeout pending i := by
    unfold fireTimeout
    intro hcontra
    exact ((List.Nodup.mem_erase_iff hnd).mp hcontra).1 rfl
  refine ⟨hnotmem, ?_⟩
  unfold handleMessage
  rw [hid]
  have hcont : (fireTimeout pending i).contains i = false := by
    simpa using hnotmem
  simp [hcont]
  exact fun _ => hnotmem

/-- Witness for C8: request `req-1` is pending and times out; the
late-arriving reply with the same id is emitted as unsolicited. -/
theorem C8_timeout_removes_entry_and_late_reply_is_unsolicited_witness :
    "req-1" ∉ fireTimeout ["req-1"] "req-1" ∧
      handleMessage (fireTimeout ["req-1"] "req-1") fastReply =
        (HandleOutcome.unsolicited fastReply, fireTimeout ["req-1"] "req-1") := by
  exact C8_timeout_removes_entry_and_late_reply_is_unsolicited
    ["req-1"] "req-1" fastReply (by decide) (by decide) rfl

/-- C9: whatever the startup connectivity probe's outcome, after
`connect()` the transport is marked connected, and the guard at the top
of `send` therefore lets every per-call send proceed. -/
theorem C9_connect_usable_despite_probe_failure (probe : Except String Unit) :
    connectAfter probe = true ∧
      sendGate (connectAfter probe) = Except.ok () := by
  cases probe <;> exact ⟨rfl, rfl⟩

/-- Witness for C9: a failing probe still yields a connected, usable
session. -/
theorem C9_connect_usable_despite_probe_failure_witness :
    connectAfter (Except.error "HTTP 401: Unauthorized") = true ∧
      sendGate (connectAfter (Except.error "HTTP 401: Unauthorized")) =
        Except.ok () :=
  C9_connect_usable_despite_probe_failure (Except.error "HTTP 401: Unauthorized")

/-- C10: a streaming response that ends with no fragment matching the
request id and an empty trailing buffer makes the send resolve with
`undefined` (`none`): neither a result nor an error reaches the
caller. -/
theorem C10_stream_without_match_resolves_undefined (msgId : String)
    (chunks : List String)
    (hscan : scanLines msgId (streamCompleteLines chunks "") = none)
    (hbuf : hasNonWS (streamFinalBuffer chunks "") = false) :
    sendHTTPStreaming msgId chunks = none := by
  unfold sendHTTPStreaming
  rw [sendHTTPStreamLoop_eq, hscan]
  simp [flushBuffer, hbuf]

/-- Witness for C10: a stream whose only fragment answers a different id
and which ends on a newline resolves with `undefined`. -/
theorem C10_stream_without_match_resolves_undefined_witness :
    sendHTTPStreaming "x" [otherIdChunk] = none := by
  exact C10_stream_without_match_resolves_undefined "x" [otherIdChunk] rfl rfl
